import Mathlib

/-!
# Verification of the stratum repository against its specification

Shallow embedding of the parts of the `stratum` repository (Stratum V2 mining
stack) that the checked claims are about:

* `GroupChannelJobDispatcher` and its handlers
  (`protocols/v2/messages-sv2/src/job_dispatcher.rs`);
* the merkle-root, hashrate/target and `GroupId` helpers
  (`protocols/v2/roles-logic-sv2/src/utils.rs`);
* `Downstream::difficulty_from_target`
  (`roles/translator/src/downstream_sv1/downstream.rs`);
* the first handshake stage of the noise `Responder`
  (`protocols/v2/noise-sv2/src/lib.rs`).

Bytes are modelled as `Nat` (values `< 256` wherever the code produces them),
byte strings as `List Nat`, and Rust machine integers as `Nat` with explicit
reduction `% 2^w` where overflow can occur.  Rust `HashMap`s are modelled as
association lists (`List (Nat × α)`) with insert-or-replace semantics; the
dispatcher only ever swaps or clears whole maps, so list equality coincides
with map equality in every statement below.  Fallible Rust code returns
`Option`/`Except`; a reachable `panic!` is modelled as a dedicated result
constructor.
-/

namespace Stratum

/-! ## SHA-256 (FIPS 180-4) over byte lists

The repository consumes double SHA-256 from the `bitcoin` crate
(`bitcoin::hashes::sha256d`).  It is embedded here executably so that the
merkle-root computations of `job_dispatcher.rs` and `utils.rs` are fully
concrete.  Words are `Nat` reduced `% 2^32`. -/

def M32 : Nat := 4294967296

def add32 (a b : Nat) : Nat := (a + b) % M32

def rotr32 (n x : Nat) : Nat := ((x >>> n) ||| (x <<< (32 - n))) % M32

def shaCh (x y z : Nat) : Nat := (x &&& y) ^^^ ((x ^^^ 4294967295) &&& z)

def shaMaj (x y z : Nat) : Nat := (x &&& y) ^^^ (x &&& z) ^^^ (y &&& z)

def bsig0 (x : Nat) : Nat := rotr32 2 x ^^^ rotr32 13 x ^^^ rotr32 22 x

def bsig1 (x : Nat) : Nat := rotr32 6 x ^^^ rotr32 11 x ^^^ rotr32 25 x

def ssig0 (x : Nat) : Nat := rotr32 7 x ^^^ rotr32 18 x ^^^ (x >>> 3)

def ssig1 (x : Nat) : Nat := rotr32 17 x ^^^ rotr32 19 x ^^^ (x >>> 10)

/-- The 64 SHA-256 round constants, as decimal word values. -/
def shaK : List Nat :=
  [
   1116352408, 1899447441, 3049323471, 3921009573, 961987163, 1508970993,
   2453635748, 2870763221, 3624381080, 310598401, 607225278, 1426881987,
   1925078388, 2162078206, 2614888103, 3248222580, 3835390401, 4022224774,
   264347078, 604807628, 770255983, 1249150122, 1555081692, 1996064986,
   2554220882, 2821834349, 2952996808, 3210313671, 3336571891, 3584528711,
   113926993, 338241895, 666307205, 773529912, 1294757372, 1396182291,
   1695183700, 1986661051, 2177026350, 2456956037, 2730485921, 2820302411,
   3259730800, 3345764771, 3516065817, 3600352804, 4094571909, 275423344,
   430227734, 506948616, 659060556, 883997877, 958139571, 1322822218,
   1537002063, 1747873779, 1955562222, 2024104815, 2227730452, 2361852424,
   2428436474, 2756734187, 3204031479, 3329325298]

/-- The eight SHA-256 initial hash values, as decimal word values. -/
def shaH0 : List Nat :=
  [
   1779033703, 3144134277, 1013904242, 2773480762, 1359893119, 2600822924,
   528734635, 1541459225]

/-- Big-endian 4-byte serialization of a 32-bit word. -/
def u32be (x : Nat) : List Nat :=
  [(x >>> 24) % 256, (x >>> 16) % 256, (x >>> 8) % 256, x % 256]

/-- Big-endian 8-byte serialization of a 64-bit word. -/
def u64be (x : Nat) : List Nat :=
  [(x >>> 56) % 256, (x >>> 48) % 256, (x >>> 40) % 256, (x >>> 32) % 256,
   (x >>> 24) % 256, (x >>> 16) % 256, (x >>> 8) % 256, x % 256]

/-- SHA-256 padding: `0x80`, zeros to 56 mod 64, then the bit length. -/
def shaPad (msg : List Nat) : List Nat :=
  let len := msg.length
  let zeros := (64 + 56 - ((len + 1) % 64)) % 64
  msg ++ [0x80] ++ List.replicate zeros 0 ++ u64be (8 * len)

/-- Group a byte list into big-endian 32-bit words. -/
def toWordsBE : List Nat → List Nat
  | b0 :: b1 :: b2 :: b3 :: rest =>
      (b0 * 16777216 + b1 * 65536 + b2 * 256 + b3) :: toWordsBE rest
  | _ => []

/-- Extend a 16-word block to the 64-word message schedule (`k` more words). -/
def extendW (w : List Nat) : Nat → List Nat
  | 0 => w
  | Nat.succ k =>
      let t := w.length
      let nw := add32 (add32 (ssig1 (w.getD (t - 2) 0)) (w.getD (t - 7) 0))
                      (add32 (ssig0 (w.getD (t - 15) 0)) (w.getD (t - 16) 0))
      extendW (w ++ [nw]) k

/-- One SHA-256 round: state `[a,b,c,d,e,f,g,h]`, input `(K_t, W_t)`. -/
def shaRound (st : List Nat) (kw : Nat × Nat) : List Nat :=
  match st with
  | [a, b, c, d, e, f, g, h] =>
      let t1 := add32 h (add32 (bsig1 e) (add32 (shaCh e f g) (add32 kw.1 kw.2)))
      let t2 := add32 (bsig0 a) (shaMaj a b c)
      [add32 t1 t2, a, b, c, add32 d t1, e, f, g]
  | _ => st

/-- Compress one 64-byte block into the running 8-word state. -/
def shaCompress (st block : List Nat) : List Nat :=
  let w := extendW (toWordsBE block) 48
  let fin := (shaK.zip w).foldl shaRound st
  List.zipWith add32 st fin

/-- Fold the compression function over `n` consecutive 64-byte blocks. -/
def shaBlocks (st bytes : List Nat) : Nat → List Nat
  | 0 => st
  | Nat.succ n => shaBlocks (shaCompress st (bytes.take 64)) (bytes.drop 64) n

/-- SHA-256 of a byte list, as its 32 digest bytes. -/
def sha256 (msg : List Nat) : List Nat :=
  let padded := shaPad msg
  let st := shaBlocks shaH0 padded (padded.length / 64)
  (st.map u32be).flatten

/-- Double SHA-256 (`bitcoin::hashes::sha256d`). -/
def sha256d (msg : List Nat) : List Nat := sha256 (sha256 msg)

/-! ## Association lists standing in for `std::collections::HashMap<u32, V>`

The dispatcher only inserts, looks up, swaps whole maps and clears; an
association list with insert-or-replace semantics models this faithfully. -/

/-- Rust `HashMap::get`. -/
def alGet {α : Type} (m : List (Nat × α)) (k : Nat) : Option α :=
  match m with
  | [] => none
  | p :: rest => if p.1 = k then some p.2 else alGet rest k

/-- Rust `HashMap::insert`: replace the binding for `k` if present, else add it. -/
def alInsert {α : Type} (m : List (Nat × α)) (k : Nat) (v : α) : List (Nat × α) :=
  match m with
  | [] => [(k, v)]
  | p :: rest => if p.1 = k then (k, v) :: rest else p :: alInsert rest k v

/-! ## `GroupChannelJobDispatcher`
(`protocols/v2/messages-sv2/src/job_dispatcher.rs`)

Field names follow the source; `coinbase_tx_pre`/`coinbase_tx_suf` stand for
the source fields `coinbase_tx_prefix`/`coinbase_tx_suffix`. -/

/-- Source struct `mining_sv2::NewExtendedMiningJob`. -/
structure NewExtendedMiningJob where
  channel_id : Nat
  job_id : Nat
  future_job : Bool
  version : Nat
  version_rolling_allowed : Bool
  merkle_path : List (List Nat)
  coinbase_tx_pre : List Nat
  coinbase_tx_suf : List Nat
  deriving DecidableEq, Repr

/-- Source struct `mining_sv2::NewMiningJob`. -/
structure NewMiningJob where
  channel_id : Nat
  job_id : Nat
  future_job : Bool
  version : Nat
  merkle_root : List Nat
  deriving DecidableEq, Repr

/-- Source struct `common_properties::StandardChannel`. -/
structure StandardChannel where
  channel_id : Nat
  group_id : Nat
  target : List Nat
  extranonce : List Nat
  deriving DecidableEq, Repr

/-- Source struct `mining_sv2::SubmitSharesStandard`. -/
structure SubmitSharesStandard where
  channel_id : Nat
  sequence_number : Nat
  job_id : Nat
  nonce : Nat
  ntime : Nat
  version : Nat
  deriving DecidableEq, Repr

/-- Source struct `mining_sv2::SubmitSharesError`; `error_code` is the byte string of the
error-code field. -/
structure SubmitSharesError where
  channel_id : Nat
  sequence_number : Nat
  error_code : List Nat
  deriving DecidableEq, Repr

/-- Source struct `mining_sv2::SetNewPrevHash` (`subprotocols/mining/src/set_new_prev_hash.rs`). -/
structure SetNewPrevHash where
  channel_id : Nat
  job_id : Nat
  prev_hash : List Nat
  min_ntime : Nat
  nbits : Nat
  deriving DecidableEq, Repr

/-- Source struct `job_dispatcher::DownstreamJob`. -/
structure DownstreamJob where
  merkle_root : List Nat
  extended_job_id : Nat
  deriving DecidableEq, Repr

/-- Source struct `job_dispatcher::GroupChannelJobDispatcher`.  The shared id generator
`ids: Arc<Mutex<Id>>` is modelled as its counter value (`Id::next` increments
then returns it). -/
structure GroupChannelJobDispatcher where
  target : List Nat
  prev_hash : List Nat
  future_jobs : List (Nat × List (Nat × DownstreamJob))
  jobs : List (Nat × DownstreamJob)
  ids : Nat
  nbits : Nat
  deriving DecidableEq, Repr

/-- Source enum `job_dispatcher::SendSharesResponse`. -/
inductive SendSharesResponse where
  | Valid (success : SubmitSharesStandard)
  | Invalid (e : SubmitSharesError)
  deriving DecidableEq, Repr

/-- Constructor `GroupChannelJobDispatcher::new`. -/
def GroupChannelJobDispatcher.new : GroupChannelJobDispatcher :=
  { target := List.replicate 32 0
    prev_hash := []
    future_jobs := []
    jobs := []
    ids := 0
    nbits := 0 }

/-- The module-local `merkle_root_from_path` of `job_dispatcher.rs`: double
SHA-256 of `coinbase_tx_prefix ‖ extranonce ‖ coinbase_tx_suffix`, folded with
`SHA256d(root ‖ leaf)` over the path.  (Unlike its namesake in
`roles-logic-sv2/src/utils.rs` it performs no transaction deserialization.) -/
def jdMerkleRootFromPath (cbPre cbSuf extranonce : List Nat)
    (path : List (List Nat)) : List Nat :=
  let coinbase := cbPre ++ extranonce ++ cbSuf
  path.foldl (fun root leaf => sha256d (root ++ leaf)) (sha256d coinbase)

/-- Source function `job_dispatcher::extended_to_standard_job_for_group_channel`. -/
def extendedToStandardJobForGroupChannel (extended : NewExtendedMiningJob)
    (extranonce : List Nat) (channel_id job_id : Nat) : NewMiningJob :=
  { channel_id := channel_id
    job_id := job_id
    future_job := extended.future_job
    version := extended.version
    merkle_root := jdMerkleRootFromPath extended.coinbase_tx_pre
      extended.coinbase_tx_suf extranonce extended.merkle_path }

/-- Handler `GroupChannelJobDispatcher::on_new_extended_mining_job`: returns the
updated dispatcher together with the derived `NewMiningJob`. -/
def onNewExtendedMiningJob (self : GroupChannelJobDispatcher)
    (extended : NewExtendedMiningJob) (channel : StandardChannel) :
    GroupChannelJobDispatcher × NewMiningJob :=
  let fj := if extended.future_job
    then alInsert self.future_jobs extended.job_id []
    else self.future_jobs
  let newId := self.ids + 1
  let msg := extendedToStandardJobForGroupChannel extended channel.extranonce
    channel.channel_id newId
  let job : DownstreamJob :=
    { merkle_root := msg.merkle_root, extended_job_id := extended.job_id }
  if extended.future_job then
    let inner := (alGet fj extended.job_id).getD []
    ({ self with ids := newId
                 future_jobs := alInsert fj extended.job_id (alInsert inner msg.job_id job) },
     msg)
  else
    ({ self with ids := newId, future_jobs := fj
                 jobs := alInsert self.jobs msg.job_id job },
     msg)

/-- Outcome of `on_new_prev_hash`: `Ok(())`, `Err(Error::NoFutureJobs)`, or the
reachable `panic!("TODO: ...")` on line 191 of `job_dispatcher.rs`. -/
inductive PrevHashResult where
  | ok
  | noFutureJobs
  | todoPanic
  deriving DecidableEq, Repr

/-- Handler `GroupChannelJobDispatcher::on_new_prev_hash`.  On success the stored
future-job map for `message.job_id` is swapped into `jobs` (the old `jobs`
lands in `future_jobs`, which is then cleared), and `prev_hash`/`nbits` are
taken from the message.  In the failure cases the Rust code returns or panics
before mutating, so the state is returned unchanged. -/
def onNewPrevHash (self : GroupChannelJobDispatcher) (message : SetNewPrevHash) :
    PrevHashResult × GroupChannelJobDispatcher :=
  if self.future_jobs = [] then (.noFutureJobs, self)
  else
    match alGet self.future_jobs message.job_id with
    | none => (.todoPanic, self)
    | some stored =>
        (.ok, { self with jobs := stored
                          prev_hash := message.prev_hash
                          nbits := message.nbits
                          future_jobs := [] })

/-- Handler `GroupChannelJobDispatcher::on_submit_shares`.  The not-found branch builds
its error code from `"".to_string().into_bytes()`, i.e. the empty byte string. -/
def onSubmitShares (self : GroupChannelJobDispatcher)
    (shares : SubmitSharesStandard) : SendSharesResponse :=
  match alGet self.jobs shares.job_id with
  | some job =>
      .Valid { channel_id := shares.channel_id
               sequence_number := shares.sequence_number
               job_id := job.extended_job_id
               nonce := shares.nonce
               ntime := shares.ntime
               version := shares.version }
  | none =>
      .Invalid { channel_id := shares.channel_id
                 sequence_number := shares.sequence_number
                 error_code := [] }

/-- Byte string of a Rust string literal (UTF-8 code points; all the strings
compared in the claims are ASCII). -/
def stringBytes (s : String) : List Nat := s.data.map Char.toNat

/-! ## Bitcoin transaction deserialization

Modelled from the spec: `roles-logic-sv2/src/utils.rs` calls
`bitcoin::Transaction::deserialize` and `Transaction::txid` from the external
`bitcoin` crate, which the spec (§1 non-goals) scopes out as "consumed from a
Bitcoin library"; spec §4.8 only requires "deserialize as a Bitcoin
transaction to obtain the canonical txid; on failure return `None`".  The
parser below follows Bitcoin's consensus transaction encoding as that library
implements it: version (4 bytes LE), optional segwit marker/flag `00 01`,
varint-counted inputs (36-byte outpoint, varint-length script, 4-byte
sequence), varint-counted outputs (8-byte value, varint-length script),
per-input witnesses when the flag is set (rejecting a set flag with all
witnesses empty), 4-byte locktime, and no trailing bytes; varints must be
minimally encoded.  It returns the witness-stripped serialization, whose
double SHA-256 is the canonical txid. -/

/-- Split off exactly `n` bytes, failing on truncation. -/
def readN (n : Nat) (b : List Nat) : Option (List Nat × List Nat) :=
  if n ≤ b.length then some (b.take n, b.drop n) else none

/-- Bitcoin varint (`CompactSize`), rejecting non-minimal encodings. -/
def readVarInt : List Nat → Option (Nat × List Nat)
  | [] => none
  | x :: rest =>
    if x < 0xfd then some (x, rest)
    else if x = 0xfd then
      match rest with
      | a :: b :: r =>
          let v := a + 256 * b
          if v < 0xfd then none else some (v, r)
      | _ => none
    else if x = 0xfe then
      match rest with
      | a :: b :: c :: d :: r =>
          let v := a + 256 * b + 65536 * c + 16777216 * d
          if v < 0x10000 then none else some (v, r)
      | _ => none
    else
      match rest with
      | a :: b :: c :: d :: e :: f :: g :: h :: r =>
          let v := a + 256 * b + 65536 * c + 16777216 * d + 4294967296 * e +
            1099511627776 * f + 281474976710656 * g + 72057594037927936 * h
          if v < 0x100000000 then none else some (v, r)
      | _ => none

/-- Skip a varint-length-prefixed byte string (script or witness element). -/
def skipVarBytes (b : List Nat) : Option (List Nat) :=
  match readVarInt b with
  | none => none
  | some (len, r) => (readN len r).map Prod.snd

/-- Skip one transaction input: outpoint, script_sig, sequence. -/
def skipTxIn (b : List Nat) : Option (List Nat) :=
  match readN 36 b with
  | none => none
  | some (_, r) =>
      match skipVarBytes r with
      | none => none
      | some r2 => (readN 4 r2).map Prod.snd

/-- Skip `n` transaction inputs. -/
def skipTxIns : Nat → List Nat → Option (List Nat)
  | 0, b => some b
  | Nat.succ n, b =>
      match skipTxIn b with
      | none => none
      | some r => skipTxIns n r

/-- Skip one transaction output: value, script_pubkey. -/
def skipTxOut (b : List Nat) : Option (List Nat) :=
  match readN 8 b with
  | none => none
  | some (_, r) => skipVarBytes r

/-- Skip `n` transaction outputs. -/
def skipTxOuts : Nat → List Nat → Option (List Nat)
  | 0, b => some b
  | Nat.succ n, b =>
      match skipTxOut b with
      | none => none
      | some r => skipTxOuts n r

/-- Skip `n` varint-length-prefixed items (the elements of one witness). -/
def skipVarBytesList : Nat → List Nat → Option (List Nat)
  | 0, b => some b
  | Nat.succ n, b =>
      match skipVarBytes b with
      | none => none
      | some r => skipVarBytesList n r

/-- Skip the witnesses of `n` inputs, tracking whether all were empty. -/
def skipWitnesses : Nat → Bool → List Nat → Option (Bool × List Nat)
  | 0, allEmpty, b => some (allEmpty, b)
  | Nat.succ n, allEmpty, b =>
      match readVarInt b with
      | none => none
      | some (cnt, r) =>
          match skipVarBytesList cnt r with
          | none => none
          | some r2 => skipWitnesses n (allEmpty && cnt == 0) r2

/-- Modelled from the spec: `bitcoin::Transaction::deserialize` followed by the
preparation of the txid preimage.  Returns the witness-stripped consensus
serialization on success, `none` on any decode failure (including trailing
bytes). -/
def parseTransaction (b : List Nat) : Option (List Nat) :=
  match readN 4 b with
  | none => none
  | some (ver, b1) =>
    match readVarInt b1 with
    | none => none
    | some (n, b2) =>
      if n = 0 then
        -- segwit marker: the flag byte must be 1
        match readN 1 b2 with
        | none => none
        | some (flag, b3) =>
          if flag = [1] then
            match readVarInt b3 with
            | none => none
            | some (nin, b4) =>
              match skipTxIns nin b4 with
              | none => none
              | some b5 =>
                match readVarInt b5 with
                | none => none
                | some (nout, b6) =>
                  match skipTxOuts nout b6 with
                  | none => none
                  | some b7 =>
                    match skipWitnesses nin true b7 with
                    | none => none
                    | some (allEmpty, b8) =>
                      if nin ≠ 0 ∧ allEmpty = true then none
                      else
                        match readN 4 b8 with
                        | none => none
                        | some (lock, b9) =>
                          if b9 = [] then
                            some (ver ++ b3.take (b3.length - b7.length) ++ lock)
                          else none
          else none
      else
        match skipTxIns n b2 with
        | none => none
        | some b3 =>
          match readVarInt b3 with
          | none => none
          | some (nout, b4) =>
            match skipTxOuts nout b4 with
            | none => none
            | some b5 =>
              match readN 4 b5 with
              | none => none
              | some (_, b6) => if b6 = [] then some b else none

/-- Library call `Transaction::txid`: double SHA-256 of the witness-stripped serialization,
in digest byte order (as `txid().to_vec()` yields it). -/
def txidOf (stripped : List Nat) : List Nat := sha256d stripped

/-- Source function `utils::reduce_path`: fold the path into the running root with
`SHA256d(root ‖ node)`. -/
def reduce_path (coinbase_id : List Nat) (path : List (List Nat)) : List Nat :=
  path.foldl (fun root node => sha256d (root ++ node)) coinbase_id

/-- Source function `utils::merkle_root_from_path_`: the coinbase id itself on an empty path,
else `reduce_path`. -/
def merkle_root_from_path_ (coinbase_id : List Nat) (path : List (List Nat)) :
    List Nat :=
  match path.length with
  | 0 => coinbase_id
  | _ + 1 => reduce_path coinbase_id path

/-- Source function `utils::merkle_root_from_path` (`roles-logic-sv2/src/utils.rs`, lines
174–198): build `coinbase_tx_prefix ‖ extranonce ‖ coinbase_tx_suffix`,
deserialize it as a Bitcoin transaction (else `None`), then fold the txid
through the path. -/
def merkle_root_from_path (cbPre cbSuf extranonce : List Nat)
    (path : List (List Nat)) : Option (List Nat) :=
  match parseTransaction (cbPre ++ extranonce ++ cbSuf) with
  | none => none
  | some stripped => some (merkle_root_from_path_ (txidOf stripped) path)

/-! ## Hashrate → target (`utils::hash_rate_to_target`)

The Rust function takes `f64` arguments; the floating-point arithmetic
(`60_f64 / share_per_min`, `hashrate * s`, the saturating `as u128` cast) is
modelled as exact rational arithmetic with a floor at the cast, which agrees
with the code wherever the `f64` computations are exact.  The 256-bit
fixed-width part (`Uint256`) is exact `Nat` arithmetic bounded by the
structure of the code. -/

/-- Decidable equality for `Except`, used to evaluate the statements below on
concrete inputs. -/
instance {ε α : Type} [DecidableEq ε] [DecidableEq α] :
    DecidableEq (Except ε α) := fun a b =>
  match a, b with
  | .error e, .error f => decidable_of_iff (e = f) (by simp)
  | .ok x, .ok y => decidable_of_iff (x = y) (by simp)
  | .error _, .ok _ => isFalse (by simp)
  | .ok _, .error _ => isFalse (by simp)

/-- Source enum `utils::InputError`. -/
inductive InputError where
  | NegativeInput
  | DivisionByZero
  deriving DecidableEq, Repr

/-- Big-endian byte serialization of `x` to `n` bytes (`Uint256::to_be_bytes`). -/
def toBytesBE : Nat → Nat → List Nat
  | 0, _ => []
  | Nat.succ n, x => toBytesBE n (x >>> 8) ++ [x % 256]

/-- Outcome of `utils::hash_rate_to_target`: `Ok(target)`,
`Err(Error::TargetError(e))`, or the panic that the source reaches when the
saturating `f64 → u128` cast yields `u128::MAX = 2^128 − 1`: there
`h_times_s + 1` overflows the `u128` (a panic in debug builds; in release it
wraps to `0`, and `Uint256` division then panics on the zero divisor). -/
inductive TargetResult where
  | ok (bytes : List Nat)
  | error (e : InputError)
  | overflowPanic
  deriving DecidableEq, Repr

/-- Source function `utils::hash_rate_to_target`: validate the inputs, compute
`h·s` truncated into a `u128` (saturating cast), then
`((2^256 − 1) − h·s) / (h·s + 1)` in 256-bit arithmetic, serialized
big-endian and reversed to little-endian wire form.  When the cast saturates
at `2^128 − 1` the addition `h_times_s + 1` leaves `u128` and the source
panics (see `TargetResult.overflowPanic`); for every smaller `h·s` the `u128`
arithmetic is exact `Nat` arithmetic. -/
def hash_rate_to_target (hashrate share_per_min : ℚ) : TargetResult :=
  if share_per_min = 0 then .error .DivisionByZero
  else if share_per_min < 0 then .error .NegativeInput
  else if hashrate < 0 then .error .NegativeInput
  else
    let shares_occurrency_frequence := 60 / share_per_min
    let h_times_s : Nat :=
      min (⌊hashrate * shares_occurrency_frequence⌋.toNat) (2 ^ 128 - 1)
    if h_times_s = 2 ^ 128 - 1 then .overflowPanic
    else
      let h_times_s_plus_one := h_times_s + 1
      let numerator := (2 ^ 256 - 1) - h_times_s
      .ok (toBytesBE 32 (numerator / h_times_s_plus_one)).reverse

/-! ## `utils::GroupId` -/

/-- Rust `u32::to_le_bytes`. -/
def u32ToLeBytes (x : Nat) : List Nat :=
  [x % 256, (x >>> 8) % 256, (x >>> 16) % 256, (x >>> 24) % 256]

/-- Rust `u64::to_le_bytes`. -/
def u64ToLeBytes (x : Nat) : List Nat :=
  [x % 256, (x >>> 8) % 256, (x >>> 16) % 256, (x >>> 24) % 256,
   (x >>> 32) % 256, (x >>> 40) % 256, (x >>> 48) % 256, (x >>> 56) % 256]

/-- Rust `u64::from_be_bytes` on an 8-byte list. -/
def u64FromBeBytes (b : List Nat) : Nat :=
  b.foldl (fun acc byte => acc * 256 + byte) 0

/-- Rust `u32::from_le_bytes` on a 4-byte list. -/
def u32FromLeBytes (b : List Nat) : Nat :=
  b.foldr (fun byte acc => acc * 256 + byte) 0

/-- Source function `GroupId::into_complete_id`: byte-shuffle the two little-endian u32s into
one big-endian u64. -/
def intoCompleteId (group_id channel_id : Nat) : Nat :=
  let part_1 := u32ToLeBytes channel_id
  let part_2 := u32ToLeBytes group_id
  u64FromBeBytes [part_2.getD 3 0, part_2.getD 2 0, part_2.getD 1 0, part_2.getD 0 0,
                  part_1.getD 3 0, part_1.getD 2 0, part_1.getD 1 0, part_1.getD 0 0]

/-- Source function `GroupId::into_group_id`: the upper 32 bits via little-endian bytes 4..7. -/
def intoGroupId (complete_id : Nat) : Nat :=
  let complete := u64ToLeBytes complete_id
  u32FromLeBytes [complete.getD 4 0, complete.getD 5 0, complete.getD 6 0, complete.getD 7 0]

/-- Source function `GroupId::into_channel_id`: the lower 32 bits via little-endian bytes 0..3. -/
def intoChannelId (complete_id : Nat) : Nat :=
  let complete := u64ToLeBytes complete_id
  u32FromLeBytes [complete.getD 0 0, complete.getD 1 0, complete.getD 2 0, complete.getD 3 0]

/-! ## `Downstream::difficulty_from_target`
(`roles/translator/src/downstream_sv1/downstream.rs`, lines 190–206)

The Rust function reads the target little-endian into a `U256`, divides the
`pdiff` constant (written as a decimal string in the source) by it with
`overflowing_div` — which panics on a zero divisor, modelled as `none` — and
renders the quotient through a decimal string into an `f64`.  The
string-to-`f64` round trip is modelled as the integer quotient itself (exact
whenever the quotient is below `2^53`, as in every claim instance). -/

/-- The `pdiff` constant exactly as the source spells it
(`bigint::U256::from_dec_str("2695...9215")`). -/
def pdiffDec : Nat :=
  26959946667150639794667015087019630673637144422540572481103610249215

/-- Library call `bigint::U256::from_little_endian`. -/
def u256FromLittleEndian (b : List Nat) : Nat :=
  b.foldr (fun byte acc => acc * 256 + byte) 0

/-- Source function `Downstream::difficulty_from_target`. -/
def difficulty_from_target (target : List Nat) : Option Nat :=
  let target_u256 := u256FromLittleEndian target
  if target_u256 = 0 then none
  else some (pdiffDec / target_u256)

/-! ## Noise responder, first handshake stage
(`protocols/v2/noise-sv2/src/lib.rs`, `impl handshake::Step for Responder`,
stage 0)

The `negotiation` module (`EncryptionAlgorithm`, `NegotiationMessage`,
`get_algos`, `serialize_to_buf`) is not present under `src/`; those parts are
modelled from the spec: §4.3 "receive negotiation, choose an algo (first match
in responder's preference list; error `NoCompatibleAlgo` if none), reply with
the choice", §6 "`NegotiationMessage` = `u8 count ‖ count×u8 tags`; algorithm
tags: `ChaChaPoly = 1`, `AesGcm = 2`".  The input below is the
already-decoded algorithm list (`get_algos()`), and the reply is the chosen
algorithm's one-byte tag.  The snow handshake-state rebuild
(`update_handshake_state`) is external to the negotiation logic and not
modelled. -/

/-- Source enum `negotiation::EncryptionAlgorithm` (modelled from the spec). -/
inductive EncryptionAlgorithm where
  | ChaChaPoly
  | AesGcm
  deriving DecidableEq, Repr

/-- Modelled from the spec (§6): the one-byte wire tag of an algorithm. -/
def algoTag : EncryptionAlgorithm → Nat
  | .ChaChaPoly => 1
  | .AesGcm => 2

/-- The negotiation-stage failure (`Error::EncryptionAlgorithmNotFound`, the
spec's `NoCompatibleAlgo`). -/
inductive NoiseError where
  | EncryptionAlgorithmNotFound
  deriving DecidableEq, Repr

/-- The `Responder` fields touched by the negotiation stage. -/
structure Responder where
  stage : Nat
  requested_algorithms : List EncryptionAlgorithm
  chosen_algorithm : Option EncryptionAlgorithm
  algorithms : List EncryptionAlgorithm
  deriving DecidableEq, Repr

/-- Constructor `Responder::new`: stage 0, no recorded negotiation, preference list
`[ChaChaPoly, AesGcm]`. -/
def Responder.new : Responder :=
  { stage := 0
    requested_algorithms := []
    chosen_algorithm := none
    algorithms := [.ChaChaPoly, .AesGcm] }

/-- Handler `Responder::step`, stage 0, on a successfully decoded
`NegotiationMessage` whose algorithm list is `algos`: pick the first entry of
the responder's preference list contained in `algos`, record the list and the
choice, advance the stage, and reply (`StepResult::ExpectReply`) with the
chosen algorithm's serialized tag; error if no algorithm matches. -/
def responderStep0 (self : Responder) (algos : List EncryptionAlgorithm) :
    Except NoiseError (Responder × List Nat) :=
  match self.algorithms.find? (fun a => algos.contains a) with
  | none => .error .EncryptionAlgorithmNotFound
  | some chosen =>
      .ok ({ self with requested_algorithms := algos
                       chosen_algorithm := some chosen
                       stage := self.stage + 1 },
           [algoTag chosen])

/-! ## Helper lemmas -/

theorem alGet_alInsert_self {α : Type} (m : List (Nat × α)) (k : Nat) (v : α) :
    alGet (alInsert m k v) k = some v := by
  induction m with
  | nil => simp [alInsert, alGet]
  | cons p rest ih =>
      by_cases h : p.1 = k
      · simp [alInsert, alGet, h]
      · simp [alInsert, alGet, h, ih]

theorem alInsert_ne_nil {α : Type} (m : List (Nat × α)) (k : Nat) (v : α) :
    alInsert m k v ≠ [] := by
  cases m with
  | nil => simp [alInsert]
  | cons p rest =>
      by_cases h : p.1 = k <;> simp [alInsert, h]

theorem alGet_nil {α : Type} (k : Nat) : alGet ([] : List (Nat × α)) k = none := rfl

/-! ## Claims C1, C3, C4: `on_new_prev_hash` and `on_submit_shares` -/

/-- Concrete dispatcher for the C1 counterexample: one future job under
extended id 5. -/
def c1State : GroupChannelJobDispatcher :=
  { target := List.replicate 32 0
    prev_hash := []
    future_jobs := [(5, [(1, ⟨List.replicate 32 0, 5⟩)])]
    jobs := []
    ids := 1
    nbits := 0 }

def c1Msg1 : SetNewPrevHash :=
  { channel_id := 0, job_id := 5, prev_hash := [170], min_ntime := 1000, nbits := 7 }

def c1Msg2 : SetNewPrevHash :=
  { channel_id := 0, job_id := 5, prev_hash := [170], min_ntime := 2000, nbits := 7 }

/-- C1 (counterexample): the claim says `on_new_prev_hash` sets the
dispatcher's `min_ntime` from the message, but `GroupChannelJobDispatcher` has
no `min_ntime` field and the handler ignores `message.min_ntime` entirely: two
messages that differ only in `min_ntime`, applied to the same state with the
job id present in `future_jobs`, give identical results and identical
post-states, so no part of the dispatcher is set from `min_ntime`. -/
theorem c1_counterexample :
    c1Msg1.min_ntime ≠ c1Msg2.min_ntime ∧
    (onNewPrevHash c1State c1Msg1).1 = PrevHashResult.ok ∧
    onNewPrevHash c1State c1Msg1 = onNewPrevHash c1State c1Msg2 := by
  decide

/-- C1 (amended): for every dispatcher state and every `SetNewPrevHash` whose
`job_id` has an entry in `future_jobs`, `on_new_prev_hash` returns `Ok`, the
jobs map equals the map that was stored at `future_jobs[job_id]`,
`future_jobs` is empty, and `prev_hash` and `nbits` are set from the message
(`min_ntime` is not stored: the dispatcher has no such field). -/
theorem c1_on_new_prev_hash_promotes (s : GroupChannelJobDispatcher)
    (m : SetNewPrevHash) (stored : List (Nat × DownstreamJob))
    (h : alGet s.future_jobs m.job_id = some stored) :
    (onNewPrevHash s m).1 = PrevHashResult.ok ∧
    (onNewPrevHash s m).2.jobs = stored ∧
    (onNewPrevHash s m).2.future_jobs = [] ∧
    (onNewPrevHash s m).2.prev_hash = m.prev_hash ∧
    (onNewPrevHash s m).2.nbits = m.nbits := by
  have hne : s.future_jobs ≠ [] := by
    intro hnil
    rw [hnil] at h
    simp [alGet] at h
  simp [onNewPrevHash, hne, h]

theorem c1_witness :
    alGet c1State.future_jobs c1Msg1.job_id = some [(1, ⟨List.replicate 32 0, 5⟩)] ∧
    (onNewPrevHash c1State c1Msg1).2.jobs = [(1, ⟨List.replicate 32 0, 5⟩)] ∧
    (onNewPrevHash c1State c1Msg1).2.future_jobs = [] ∧
    (onNewPrevHash c1State c1Msg1).2.prev_hash = [170] ∧
    (onNewPrevHash c1State c1Msg1).2.nbits = 7 :=
  ⟨by decide,
   (c1_on_new_prev_hash_promotes c1State c1Msg1
     [(1, ⟨List.replicate 32 0, 5⟩)] (by decide)).2.1,
   (c1_on_new_prev_hash_promotes c1State c1Msg1
     [(1, ⟨List.replicate 32 0, 5⟩)] (by decide)).2.2.1,
   (c1_on_new_prev_hash_promotes c1State c1Msg1
     [(1, ⟨List.replicate 32 0, 5⟩)] (by decide)).2.2.2.1,
   (c1_on_new_prev_hash_promotes c1State c1Msg1
     [(1, ⟨List.replicate 32 0, 5⟩)] (by decide)).2.2.2.2⟩

/-- Concrete dispatcher for the C3 counterexample: `future_jobs` non-empty
(extended id 1) while the message references id 0. -/
def c3State : GroupChannelJobDispatcher :=
  { target := List.replicate 32 0
    prev_hash := []
    future_jobs := [(1, [])]
    jobs := []
    ids := 0
    nbits := 0 }

def c3Msg : SetNewPrevHash :=
  { channel_id := 0, job_id := 0, prev_hash := [45], min_ntime := 0, nbits := 0 }

/-- C3 (counterexample): with `future_jobs` non-empty but lacking an entry for
`message.job_id`, `on_new_prev_hash` does not return the `NoFutureJobs` error:
it hits the `panic!("TODO: ...")` arm (line 191 of `job_dispatcher.rs`), so
`NoFutureJobs` is not the only failure mode for a missing entry. -/
theorem c3_counterexample :
    alGet c3State.future_jobs c3Msg.job_id = none ∧
    c3State.future_jobs ≠ [] ∧
    (onNewPrevHash c3State c3Msg).1 = PrevHashResult.todoPanic ∧
    (onNewPrevHash c3State c3Msg).1 ≠ PrevHashResult.noFutureJobs := by
  decide

/-- C3 (amended): `on_new_prev_hash` returns the `NoFutureJobs` error exactly
when `future_jobs` is empty; when `future_jobs` is non-empty but has no entry
for `message.job_id` it panics instead of returning an error; in every
non-`Ok` outcome the dispatcher state is unchanged. -/
theorem c3_on_new_prev_hash_failures (s : GroupChannelJobDispatcher)
    (m : SetNewPrevHash) :
    ((onNewPrevHash s m).1 = PrevHashResult.noFutureJobs ↔ s.future_jobs = []) ∧
    (s.future_jobs ≠ [] → alGet s.future_jobs m.job_id = none →
      (onNewPrevHash s m).1 = PrevHashResult.todoPanic) ∧
    ((onNewPrevHash s m).1 ≠ PrevHashResult.ok → (onNewPrevHash s m).2 = s) := by
  by_cases hnil : s.future_jobs = []
  · simp [onNewPrevHash, hnil]
  · cases hget : alGet s.future_jobs m.job_id with
    | none => simp [onNewPrevHash, hnil, hget]
    | some stored => simp [onNewPrevHash, hnil, hget]

theorem c3_witness :
    (onNewPrevHash c3State c3Msg).1 = PrevHashResult.todoPanic ∧
    (onNewPrevHash c3State c3Msg).2 = c3State :=
  ⟨(c3_on_new_prev_hash_failures c3State c3Msg).2.1 (by decide) (by decide),
   (c3_on_new_prev_hash_failures c3State c3Msg).2.2 (by decide)⟩

def c4Shares : SubmitSharesStandard :=
  { channel_id := 7, sequence_number := 3, job_id := 0, nonce := 11, ntime := 12, version := 13 }

/-- C4 (counterexample): a submission whose `job_id` is absent from the jobs
map is answered with a `SubmitSharesError` carrying the submission's
`channel_id` and `sequence_number` but with the **empty** error code
(`"".to_string().into_bytes()`), which is neither `"stale-share"` nor
`"invalid-job-id"`. -/
theorem c4_counterexample :
    onSubmitShares GroupChannelJobDispatcher.new c4Shares =
      SendSharesResponse.Invalid ⟨7, 3, []⟩ ∧
    ([] : List Nat) ≠ stringBytes "stale-share" ∧
    ([] : List Nat) ≠ stringBytes "invalid-job-id" := by
  refine ⟨by decide, ?_, ?_⟩ <;> simp [stringBytes]

/-- C4 (amended): for every submission whose `job_id` is not in the jobs map,
`on_submit_shares` returns an `Invalid` response carrying the submission's
`channel_id` and `sequence_number` and the empty error code (not
`"stale-share"`/`"invalid-job-id"`). -/
theorem c4_on_submit_shares_unknown_job (s : GroupChannelJobDispatcher)
    (shares : SubmitSharesStandard)
    (h : alGet s.jobs shares.job_id = none) :
    onSubmitShares s shares =
      SendSharesResponse.Invalid ⟨shares.channel_id, shares.sequence_number, []⟩ := by
  simp [onSubmitShares, h]

theorem c4_witness :
    onSubmitShares GroupChannelJobDispatcher.new c4Shares =
      SendSharesResponse.Invalid ⟨7, 3, []⟩ :=
  c4_on_submit_shares_unknown_job GroupChannelJobDispatcher.new c4Shares (by decide)

/-! ## Claim C2: `on_submit_shares` on known jobs, and the future-job-7
scenario -/

/-- C2: (i) for every dispatcher state and every submission whose `job_id` is
in the jobs map, `on_submit_shares` returns a `Valid` share whose `job_id` is
the `extended_job_id` recorded for that standard job and whose other fields
are copied from the submission; (ii) after an extended job with
`future_job = true`, `job_id = 7` is processed and then promoted by
`SetNewPrevHash { job_id := 7 }`, a submission referencing the derived
standard job id yields a `Valid` share with `job_id = 7`. -/
theorem c2_on_submit_shares_valid :
    (∀ (s : GroupChannelJobDispatcher) (shares : SubmitSharesStandard)
       (job : DownstreamJob),
       alGet s.jobs shares.job_id = some job →
       onSubmitShares s shares =
         SendSharesResponse.Valid
           ⟨shares.channel_id, shares.sequence_number, job.extended_job_id,
            shares.nonce, shares.ntime, shares.version⟩) ∧
    (∀ (s0 : GroupChannelJobDispatcher) (extended : NewExtendedMiningJob)
       (channel : StandardChannel) (m : SetNewPrevHash)
       (shares : SubmitSharesStandard),
       extended.future_job = true → extended.job_id = 7 → m.job_id = 7 →
       shares.job_id = (onNewExtendedMiningJob s0 extended channel).2.job_id →
       (onNewPrevHash (onNewExtendedMiningJob s0 extended channel).1 m).1 =
         PrevHashResult.ok ∧
       onSubmitShares (onNewPrevHash (onNewExtendedMiningJob s0 extended channel).1 m).2
           shares =
         SendSharesResponse.Valid
           ⟨shares.channel_id, shares.sequence_number, 7,
            shares.nonce, shares.ntime, shares.version⟩) := by
  constructor
  · intro s shares job h
    simp [onSubmitShares, h]
  · intro s0 extended channel m shares hfut hjid hmid hsid
    set msg := extendedToStandardJobForGroupChannel extended channel.extranonce
      channel.channel_id (s0.ids + 1) with hmsg
    set job : DownstreamJob := ⟨msg.merkle_root, extended.job_id⟩ with hjobdef
    set FJ := alInsert (alInsert s0.future_jobs extended.job_id [])
      extended.job_id (alInsert [] msg.job_id job) with hFJ
    have hstep : onNewExtendedMiningJob s0 extended channel =
        ({ s0 with ids := s0.ids + 1, future_jobs := FJ }, msg) := by
      simp only [onNewExtendedMiningJob, hfut, if_true, hFJ, hjobdef, hmsg,
        alGet_alInsert_self, Option.getD_some]
    have hne : FJ ≠ [] := alInsert_ne_nil _ _ _
    have hget : alGet FJ m.job_id = some (alInsert [] msg.job_id job) := by
      rw [hmid, ← hjid, hFJ]
      exact alGet_alInsert_self _ _ _
    have hprev : onNewPrevHash ({ s0 with ids := s0.ids + 1, future_jobs := FJ } :
        GroupChannelJobDispatcher) m =
        (PrevHashResult.ok,
         { s0 with ids := s0.ids + 1, future_jobs := []
                   jobs := alInsert [] msg.job_id job
                   prev_hash := m.prev_hash, nbits := m.nbits }) := by
      simp [onNewPrevHash, hne, hget]
    have hsid2 : shares.job_id = msg.job_id := by
      rw [hsid, hstep]
    have hlookup : alGet (alInsert ([] : List (Nat × DownstreamJob))
        msg.job_id job) shares.job_id = some job := by
      rw [hsid2]
      exact alGet_alInsert_self _ _ _
    rw [hstep]
    constructor
    · rw [hprev]
    · rw [hprev]
      simp only [onSubmitShares, hlookup]
      simp [hjobdef, hjid]

def c2Ext : NewExtendedMiningJob :=
  { channel_id := 2, job_id := 7, future_job := true, version := 2
    version_rolling_allowed := false, merkle_path := []
    coinbase_tx_pre := [], coinbase_tx_suf := [] }

def c2Chan : StandardChannel :=
  { channel_id := 4, group_id := 1, target := List.replicate 32 0, extranonce := [] }

def c2Msg : SetNewPrevHash :=
  { channel_id := 0, job_id := 7, prev_hash := [45], min_ntime := 0, nbits := 0 }

def c2Shares : SubmitSharesStandard :=
  { channel_id := 4, sequence_number := 1, job_id := 1, nonce := 10, ntime := 20, version := 30 }

theorem c2_witness :
    (onNewPrevHash (onNewExtendedMiningJob GroupChannelJobDispatcher.new c2Ext c2Chan).1
        c2Msg).1 = PrevHashResult.ok ∧
    onSubmitShares
        (onNewPrevHash (onNewExtendedMiningJob GroupChannelJobDispatcher.new c2Ext c2Chan).1
          c2Msg).2 c2Shares =
      SendSharesResponse.Valid ⟨4, 1, 7, 10, 20, 30⟩ :=
  c2_on_submit_shares_valid.2 GroupChannelJobDispatcher.new c2Ext c2Chan c2Msg c2Shares
    rfl rfl rfl rfl

/-! ## Claim C5: `utils::merkle_root_from_path` -/

theorem shaRound_length (st : List Nat) (kw : Nat × Nat) (h : st.length = 8) :
    (shaRound st kw).length = 8 := by
  rcases st with _ | ⟨a, _ | ⟨b, _ | ⟨c, _ | ⟨d, _ | ⟨e, _ | ⟨f, _ | ⟨g, _ | ⟨h8, _ | ⟨i, t⟩⟩⟩⟩⟩⟩⟩⟩⟩ <;>
    simp_all [shaRound]

theorem foldl_shaRound_length (l : List (Nat × Nat)) (st : List Nat)
    (h : st.length = 8) : (l.foldl shaRound st).length = 8 := by
  induction l generalizing st with
  | nil => simpa using h
  | cons kw rest ih => exact ih _ (shaRound_length st kw h)

theorem shaCompress_length (st block : List Nat) (h : st.length = 8) :
    (shaCompress st block).length = 8 := by
  simp [shaCompress, List.length_zipWith, h,
    foldl_shaRound_length _ _ h]

theorem shaBlocks_length (n : Nat) (st bytes : List Nat) (h : st.length = 8) :
    (shaBlocks st bytes n).length = 8 := by
  induction n generalizing st bytes with
  | zero => simpa [shaBlocks] using h
  | succ n ih => exact ih _ _ (shaCompress_length st _ h)

theorem map_u32be_flatten_length (l : List Nat) :
    ((l.map u32be).flatten).length = 4 * l.length := by
  induction l with
  | nil => simp
  | cons x rest ih =>
      simp [u32be, ih]
      ring

/-- Every SHA-256 digest is 32 bytes. -/
theorem sha256_length (msg : List Nat) : (sha256 msg).length = 32 := by
  have h8 : (shaBlocks shaH0 (shaPad msg) ((shaPad msg).length / 64)).length = 8 :=
    shaBlocks_length _ _ _ (by rfl)
  have hdef : sha256 msg =
      ((shaBlocks shaH0 (shaPad msg) ((shaPad msg).length / 64)).map u32be).flatten := rfl
  rw [hdef, map_u32be_flatten_length, h8]

theorem sha256d_length (msg : List Nat) : (sha256d msg).length = 32 :=
  sha256_length _

theorem reduce_path_length (path : List (List Nat)) (root : List Nat)
    (h : root.length = 32) :
    (path.foldl (fun root node => sha256d (root ++ node)) root).length = 32 := by
  induction path generalizing root with
  | nil => simpa using h
  | cons node rest ih => exact ih _ (sha256d_length _)

theorem merkle_root_from_path_eq_foldl (coinbase_id : List Nat)
    (path : List (List Nat)) :
    merkle_root_from_path_ coinbase_id path =
      path.foldl (fun root node => sha256d (root ++ node)) coinbase_id := by
  cases path with
  | nil => rfl
  | cons p rest => rfl

/-- C5: `merkle_root_from_path` concatenates
`coinbase_tx_prefix ‖ extranonce ‖ coinbase_tx_suffix`, returns `none` exactly
when that byte string does not deserialize as a Bitcoin transaction, and
otherwise returns the 32-byte value obtained by folding the transaction's
txid (the double SHA-256 of its witness-stripped serialization) left-to-right
over the path with `root ← SHA256d(root ‖ sibling)`; on an empty path the
result is the txid itself. -/
theorem c5_merkle_root_from_path (cbPre cbSuf extranonce : List Nat)
    (path : List (List Nat)) :
    (merkle_root_from_path cbPre cbSuf extranonce path = none ↔
      parseTransaction (cbPre ++ extranonce ++ cbSuf) = none) ∧
    (∀ stripped, parseTransaction (cbPre ++ extranonce ++ cbSuf) = some stripped →
      merkle_root_from_path cbPre cbSuf extranonce path =
        some (path.foldl (fun root sibling => sha256d (root ++ sibling))
          (sha256d stripped)) ∧
      (path = [] →
        merkle_root_from_path cbPre cbSuf extranonce path = some (sha256d stripped))) ∧
    (∀ r, merkle_root_from_path cbPre cbSuf extranonce path = some r →
      r.length = 32) := by
  have hm : merkle_root_from_path cbPre cbSuf extranonce path =
      match parseTransaction (cbPre ++ extranonce ++ cbSuf) with
      | none => none
      | some stripped => some (merkle_root_from_path_ (txidOf stripped) path) := rfl
  cases hp : parseTransaction (cbPre ++ extranonce ++ cbSuf) with
  | none =>
      have hm2 : merkle_root_from_path cbPre cbSuf extranonce path = none := by
        rw [hm, hp]
      refine ⟨by simp [hm2, hp], ?_, ?_⟩
      · intro stripped hs
        cases hs
      · intro r hr
        rw [hm2] at hr
        cases hr
  | some stripped0 =>
      have hm2 : merkle_root_from_path cbPre cbSuf extranonce path =
          some (merkle_root_from_path_ (txidOf stripped0) path) := by
        rw [hm, hp]
      refine ⟨by simp [hm2, hp], ?_, ?_⟩
      · intro stripped hs
        cases hs
        constructor
        · rw [hm2, merkle_root_from_path_eq_foldl, txidOf]
        · intro hnil
          subst hnil
          rw [hm2]
          rfl
      · intro r hr
        rw [hm2] at hr
        cases hr
        rw [merkle_root_from_path_eq_foldl]
        exact reduce_path_length _ _ (sha256_length _)

/-- Coinbase prefix bytes of the reference fixture in the
`test_merkle_root_from_path` test of `utils.rs` (`coinbase_bytes[..20]`). -/
def c5Pre : List Nat :=
  [1, 0, 0, 0, 1, 0, 0, 0, 0, 0, 0, 0, 0, 0, 0, 0, 0, 0, 0, 0]

/-- Extranonce bytes of the same fixture (`coinbase_bytes[20..30]`). -/
def c5Extr : List Nat :=
  [0, 0, 0, 0, 0, 0, 0, 0, 0, 0]

/-- Coinbase suffix bytes of the same fixture (`coinbase_bytes[30..]`). -/
def c5Suf : List Nat :=
  [0, 0, 0, 0, 0, 0, 0, 255, 255, 255, 255, 75, 3, 63, 146, 11, 250, 190, 109,
  109, 86, 6, 110, 64, 228, 218, 247, 203, 127, 75, 141, 53, 51, 197, 180, 38,
  117, 115, 221, 103, 2, 11, 85, 213, 65, 221, 74, 90, 97, 128, 91, 182, 1, 0,
  0, 0, 0, 0, 0, 0, 49, 101, 7, 7, 139, 168, 76, 0, 1, 0, 0, 0, 0, 0, 0, 70,
  84, 183, 110, 24, 47, 115, 108, 117, 115, 104, 47, 0, 0, 0, 0, 3, 120, 55,
  179, 37, 0, 0, 0, 0, 25, 118, 169, 20, 124, 21, 78, 209, 220, 89, 96, 158,
  61, 38, 171, 178, 223, 46, 163, 213, 135, 205, 140, 65, 136, 172, 0, 0, 0,
  0, 0, 0, 0, 0, 44, 106, 76, 41, 82, 83, 75, 66, 76, 79, 67, 75, 58, 216, 82,
  49, 182, 148, 133, 228, 178, 20, 248, 55, 219, 145, 83, 227, 86, 32, 97,
  240, 182, 3, 175, 116, 196, 69, 114, 83, 46, 0, 71, 230, 205, 0, 0, 0, 0, 0,
  0, 0, 0, 38, 106, 36, 170, 33, 169, 237, 179, 75, 32, 206, 223, 111, 113,
  150, 112, 248, 21, 36, 163, 123, 107, 168, 153, 76, 233, 86, 77, 218, 162,
  59, 48, 26, 180, 38, 62, 34, 3, 185, 0, 0, 0, 0]

/-- The 12-element merkle path of the same fixture. -/
def c5Path : List (List Nat) :=
  [[122, 97, 64, 124, 164, 158, 164, 14, 87, 119, 226, 169, 34, 196, 251, 51,
  31, 131, 109, 250, 13, 54, 94, 6, 177, 27, 156, 154, 101, 30, 123, 159],
  [180, 113, 121, 253, 215, 85, 129, 38, 108, 2, 86, 66, 46, 12, 131, 139,
  130, 87, 29, 92, 59, 164, 247, 114, 251, 140, 129, 88, 127, 196, 125, 116],
  [171, 77, 225, 148, 80, 32, 41, 157, 246, 77, 161, 49, 87, 139, 214, 236,
  149, 164, 192, 128, 195, 9, 5, 168, 131, 27, 250, 9, 60, 179, 206, 94], [6,
  187, 202, 75, 155, 220, 255, 166, 199, 35, 182, 220, 20, 96, 123, 41, 109,
  40, 186, 142, 13, 139, 230, 164, 116, 177, 217, 23, 16, 123, 135, 202],
  [109, 45, 171, 89, 223, 39, 132, 14, 150, 128, 241, 113, 136, 227, 105, 123,
  224, 48, 66, 240, 189, 186, 222, 49, 173, 143, 80, 90, 110, 219, 192, 235],
  [196, 7, 21, 180, 228, 161, 182, 132, 28, 153, 242, 12, 210, 127, 157, 86,
  62, 123, 181, 33, 84, 3, 105, 129, 148, 162, 5, 152, 64, 7, 196, 156], [22,
  16, 18, 180, 109, 237, 68, 167, 197, 10, 195, 134, 11, 119, 219, 184, 49,
  140, 239, 45, 27, 210, 212, 120, 186, 60, 155, 105, 106, 219, 218, 32], [83,
  228, 21, 241, 42, 240, 8, 254, 109, 156, 59, 171, 167, 46, 183, 60, 27, 63,
  241, 211, 235, 179, 147, 99, 46, 3, 22, 166, 159, 169, 183, 159], [230, 81,
  3, 190, 66, 73, 200, 55, 94, 135, 209, 50, 92, 193, 114, 202, 141, 170, 124,
  142, 206, 29, 88, 9, 22, 110, 203, 145, 238, 66, 166, 35], [43, 106, 86,
  239, 237, 74, 208, 202, 247, 133, 88, 42, 15, 77, 163, 186, 85, 26, 89, 151,
  5, 19, 30, 122, 108, 220, 215, 104, 152, 226, 113, 55], [148, 76, 200, 221,
  206, 54, 56, 45, 252, 60, 123, 202, 195, 73, 144, 65, 168, 184, 59, 130,
  145, 229, 250, 44, 213, 70, 175, 128, 34, 31, 102, 80], [203, 112, 102, 31,
  49, 147, 24, 25, 245, 61, 179, 146, 205, 127, 126, 100, 78, 204, 228, 146,
  209, 154, 89, 194, 209, 81, 57, 167, 88, 251, 44, 76]]


set_option maxRecDepth 100000 in
theorem c5_witness :
    merkle_root_from_path c5Pre c5Suf c5Extr c5Path =
      some (c5Path.foldl (fun root sibling => sha256d (root ++ sibling))
        (sha256d (c5Pre ++ c5Extr ++ c5Suf))) ∧
    merkle_root_from_path c5Pre c5Suf c5Extr [] =
      some (sha256d (c5Pre ++ c5Extr ++ c5Suf)) :=
  ⟨((c5_merkle_root_from_path c5Pre c5Suf c5Extr c5Path).2.1
      (c5Pre ++ c5Extr ++ c5Suf) (by rfl)).1,
   ((c5_merkle_root_from_path c5Pre c5Suf c5Extr []).2.1
      (c5Pre ++ c5Extr ++ c5Suf) (by rfl)).2 rfl⟩

set_option maxRecDepth 100000 in
/-- Embedding validation (not itself a claim): with an empty path the
reference fixture of the repository's `test_merkle_root_from_path` test yields
exactly the coinbase txid that the test expects, confirming the SHA-256 and
transaction-parsing embeddings against the source's own test data. -/
theorem merkle_root_fixture_txid :
    merkle_root_from_path c5Pre c5Suf c5Extr [] =
      some [10, 66, 217, 241, 152, 86, 5, 234, 225, 85, 251, 215, 105, 1, 21, 126,
            222, 69, 40, 157, 23, 177, 157, 106, 234, 164, 243, 206, 23, 241, 250, 166] := by
  decide

/-! ## Claim C6: `utils::hash_rate_to_target` -/

/-- Evaluation helper: on validated, non-saturating inputs
`hash_rate_to_target` reduces to the 256-bit integer computation. -/
theorem hash_rate_to_target_ok (hashrate share_per_min : ℚ) (hts : Nat)
    (h0 : ¬ share_per_min = 0) (hneg : ¬ share_per_min < 0)
    (hh : ¬ hashrate < 0)
    (hdef : hts = min (⌊hashrate * (60 / share_per_min)⌋.toNat) (2 ^ 128 - 1))
    (hlt : hts ≠ 2 ^ 128 - 1) :
    hash_rate_to_target hashrate share_per_min =
      TargetResult.ok ((toBytesBE 32 (((2 ^ 256 - 1) - hts) / (hts + 1))).reverse) := by
  subst hdef
  rw [hash_rate_to_target, if_neg h0, if_neg hneg, if_neg hh]
  simp only [hlt, if_false, ite_false]

/-- Evaluation helper: when the truncated `h·s` saturates at `u128::MAX`, the
source panics on the overflowing `h_times_s + 1`. -/
theorem hash_rate_to_target_panic (hashrate share_per_min : ℚ)
    (h0 : ¬ share_per_min = 0) (hneg : ¬ share_per_min < 0)
    (hh : ¬ hashrate < 0)
    (hsat : min (⌊hashrate * (60 / share_per_min)⌋.toNat) (2 ^ 128 - 1) =
      2 ^ 128 - 1) :
    hash_rate_to_target hashrate share_per_min = TargetResult.overflowPanic := by
  rw [hash_rate_to_target, if_neg h0, if_neg hneg, if_neg hh]
  simp only [hsat, if_true, ite_true]

/-- C6 (counterexample): the claim fails in two ways.  At
`hashrate = 1238926361552896`, `share_per_min = 60` (where the `f64`
arithmetic is exact: `60/60 = 1` and the hashrate is below `2^53`), the code
does **not** return the 32-byte value of `(2^256 − h·s) / (h·s + 1)`: its
numerator is `2^256 − 1 − h·s`, and because `h·s + 1 = 1238926361552897`
divides `2^256 + 1`, the two quotients differ (by exactly one).  And at
`hashrate = 2^127`, `share_per_min = 15` (again exact in `f64`: `s = 4`,
`h·s = 2^129`), the saturating `u128` cast yields `2^128 − 1`, the addition
`h·s + 1` overflows the `u128`, and the code panics instead of returning any
value. -/
theorem c6_counterexample :
    hash_rate_to_target 1238926361552896 60 =
      TargetResult.ok ((toBytesBE 32
        ((2 ^ 256 - 1 - 1238926361552896) / (1238926361552896 + 1))).reverse) ∧
    hash_rate_to_target 1238926361552896 60 ≠
      TargetResult.ok ((toBytesBE 32
        ((2 ^ 256 - 1238926361552896) / (1238926361552896 + 1))).reverse) ∧
    hash_rate_to_target 170141183460469231731687303715884105728 15 =
      TargetResult.overflowPanic := by
  have hfloor : (⌊(1238926361552896 : ℚ) * (60 / 60)⌋ : Int) = 1238926361552896 := by
    norm_num
  have hval : hash_rate_to_target 1238926361552896 60 =
      TargetResult.ok ((toBytesBE 32
        ((2 ^ 256 - 1 - 1238926361552896) / (1238926361552896 + 1))).reverse) := by
    have h := hash_rate_to_target_ok 1238926361552896 60 1238926361552896
      (by norm_num) (by norm_num) (by norm_num) (by rw [hfloor]; decide) (by decide)
    simpa using h
  refine ⟨hval, ?_, ?_⟩
  · rw [hval]
    intro hcontra
    have : (toBytesBE 32 ((2 ^ 256 - 1 - 1238926361552896) / (1238926361552896 + 1))).reverse =
        (toBytesBE 32 ((2 ^ 256 - 1238926361552896) / (1238926361552896 + 1))).reverse := by
      exact TargetResult.ok.inj hcontra
    revert this
    decide
  · have hfloor2 : (⌊(170141183460469231731687303715884105728 : ℚ) * (60 / 15)⌋ : Int) =
        680564733841876926926749214863536422912 := by
      norm_num
    exact hash_rate_to_target_panic 170141183460469231731687303715884105728 15
      (by norm_num) (by norm_num) (by norm_num) (by rw [hfloor2]; decide)

/-- C6 (amended): `hash_rate_to_target` errors exactly when `share_per_min`
is zero or negative or `hashrate` is negative.  For all other inputs let
`h·s` be `hashrate · (60 / share_per_min)` truncated to an integer by the
saturating `u128` cast (capped at `2^128 − 1`): when `h·s` is below the cap
the function returns the 32-byte value of `(2^256 − 1 − h·s) / (h·s + 1)` —
not `(2^256 − h·s) / (h·s + 1)` — computed in 256-bit fixed-width
arithmetic, serialized big-endian and then byte-reversed to little-endian
wire form; when `h·s` saturates at `2^128 − 1` the addition `h·s + 1`
overflows the `u128` and the function panics instead of returning a value.
(The `f64` steps are modelled as exact rational arithmetic.) -/
theorem c6_hash_rate_to_target (hashrate share_per_min : ℚ) :
    ((∃ e, hash_rate_to_target hashrate share_per_min = TargetResult.error e) ↔
      share_per_min ≤ 0 ∨ hashrate < 0) ∧
    (∀ hts : Nat, 0 < share_per_min → 0 ≤ hashrate →
      hts = min (⌊hashrate * (60 / share_per_min)⌋.toNat) (2 ^ 128 - 1) →
      hts ≠ 2 ^ 128 - 1 →
      hash_rate_to_target hashrate share_per_min =
        TargetResult.ok ((toBytesBE 32 (((2 ^ 256 - 1) - hts) / (hts + 1))).reverse)) ∧
    (0 < share_per_min → 0 ≤ hashrate →
      min (⌊hashrate * (60 / share_per_min)⌋.toNat) (2 ^ 128 - 1) = 2 ^ 128 - 1 →
      hash_rate_to_target hashrate share_per_min = TargetResult.overflowPanic) := by
  refine ⟨?_, ?_, ?_⟩
  · by_cases h0 : share_per_min = 0
    · simp only [hash_rate_to_target, h0, if_pos rfl]
      constructor
      · intro _
        left
        simp [h0]
      · intro _
        exact ⟨InputError.DivisionByZero, rfl⟩
    · by_cases hneg : share_per_min < 0
      · simp only [hash_rate_to_target, if_neg h0, if_pos hneg]
        constructor
        · intro _
          left
          linarith
        · intro _
          exact ⟨InputError.NegativeInput, rfl⟩
      · by_cases hh : hashrate < 0
        · simp only [hash_rate_to_target, if_neg h0, if_neg hneg, if_pos hh]
          constructor
          · intro _
            right
            exact hh
          · intro _
            exact ⟨InputError.NegativeInput, rfl⟩
        · simp only [hash_rate_to_target, if_neg h0, if_neg hneg, if_neg hh]
          constructor
          · intro ⟨e, he⟩
            split at he <;> cases he
          · intro hor
            rcases hor with hle | hlt
            · exact absurd (lt_of_le_of_ne (not_lt.mp hneg) (Ne.symm h0)) (not_lt.mpr hle)
            · exact absurd hlt hh
  · intro hts hpos hnn hdef hlt
    exact hash_rate_to_target_ok hashrate share_per_min hts
      (ne_of_gt hpos) (not_lt.mpr (le_of_lt hpos)) (not_lt.mpr hnn) hdef hlt
  · intro hpos hnn hsat
    exact hash_rate_to_target_panic hashrate share_per_min
      (ne_of_gt hpos) (not_lt.mpr (le_of_lt hpos)) (not_lt.mpr hnn) hsat

theorem c6_witness :
    hash_rate_to_target 10 6 =
      TargetResult.ok ((toBytesBE 32 (((2 ^ 256 - 1) - 100) / (100 + 1))).reverse) ∧
    hash_rate_to_target 170141183460469231731687303715884105728 15 =
      TargetResult.overflowPanic :=
  ⟨(c6_hash_rate_to_target 10 6).2.1 100 (by norm_num) (by norm_num)
      (by rw [show (⌊(10 : ℚ) * (60 / 6)⌋ : Int) = 100 by norm_num]; decide)
      (by decide),
   (c6_hash_rate_to_target 170141183460469231731687303715884105728 15).2.2
      (by norm_num) (by norm_num)
      (by rw [show (⌊(170141183460469231731687303715884105728 : ℚ) * (60 / 15)⌋ : Int) =
          680564733841876926926749214863536422912 by norm_num]; decide)⟩

/-! ## Claim C8: `Downstream::difficulty_from_target` -/

/-- The little-endian target byte list of the concrete C8 example: 24 zero
bytes, then `0x80 0xff 0x7f`, then 5 zero bytes. -/
def c8Target : List Nat :=
  List.replicate 24 0 ++ [0x80, 0xff, 0x7f] ++ List.replicate 5 0

/-- C8: for every 32-byte target with non-zero value,
`difficulty_from_target` yields `pdiff / target` where the target is read as a
little-endian 256-bit unsigned integer and `pdiff` is the hex constant of the
claim (the source's decimal constant denotes the same number); the example
target `00…00 80 ff 7f 00 00 00 00 00` yields difficulty exactly 512.
(The all-zero target is excluded: `overflowing_div` panics on a zero divisor,
modelled as `none`; the quotient-to-`f64` decimal round trip is modelled as
the integer quotient, exact at the example.) -/
theorem c8_difficulty_from_target :
    (∀ target : List Nat, target.length = 32 →
      u256FromLittleEndian target ≠ 0 →
      difficulty_from_target target =
        some (0x00000000FFFFFFFFFFFFFFFFFFFFFFFFFFFFFFFFFFFFFFFFFFFFFFFFFFFFFFFF /
          u256FromLittleEndian target)) ∧
    c8Target.length = 32 ∧
    difficulty_from_target c8Target = some 512 := by
  refine ⟨?_, by decide, by decide⟩
  intro target _ hnz
  rw [difficulty_from_target, if_neg hnz]
  rfl

theorem c8_witness :
    difficulty_from_target c8Target =
      some (0x00000000FFFFFFFFFFFFFFFFFFFFFFFFFFFFFFFFFFFFFFFFFFFFFFFFFFFFFFFF /
        u256FromLittleEndian c8Target) :=
  c8_difficulty_from_target.1 c8Target (by decide) (by decide)

/-! ## Claim C9: noise responder algorithm negotiation (stage 0) -/

/-- C9: at its first handshake stage, on a negotiation message requesting the
algorithm set `algos`, the responder picks the first entry of its preference
list `[ChaChaPoly, AesGcm]` that occurs in `algos` — `ChaChaPoly` whenever
requested, else `AesGcm` whenever requested — records the requested list and
the choice, advances its stage, and replies with the chosen algorithm's
one-byte tag (`1` for `ChaChaPoly`, `2` for `AesGcm`); if neither algorithm
was requested it fails with the no-compatible-algorithm error. -/
theorem c9_responder_negotiation (algos : List EncryptionAlgorithm) :
    (EncryptionAlgorithm.ChaChaPoly ∈ algos →
      responderStep0 Responder.new algos =
        Except.ok ({ stage := 1, requested_algorithms := algos
                     chosen_algorithm := some EncryptionAlgorithm.ChaChaPoly
                     algorithms := [EncryptionAlgorithm.ChaChaPoly,
                                    EncryptionAlgorithm.AesGcm] }, [1])) ∧
    (EncryptionAlgorithm.ChaChaPoly ∉ algos →
      EncryptionAlgorithm.AesGcm ∈ algos →
      responderStep0 Responder.new algos =
        Except.ok ({ stage := 1, requested_algorithms := algos
                     chosen_algorithm := some EncryptionAlgorithm.AesGcm
                     algorithms := [EncryptionAlgorithm.ChaChaPoly,
                                    EncryptionAlgorithm.AesGcm] }, [2])) ∧
    (EncryptionAlgorithm.ChaChaPoly ∉ algos →
      EncryptionAlgorithm.AesGcm ∉ algos →
      responderStep0 Responder.new algos =
        Except.error NoiseError.EncryptionAlgorithmNotFound) := by
  refine ⟨?_, ?_, ?_⟩
  · intro hc
    simp [responderStep0, Responder.new, List.find?, hc, algoTag]
  · intro hc ha
    simp [responderStep0, Responder.new, List.find?, hc, ha, algoTag]
  · intro hc ha
    simp [responderStep0, Responder.new, List.find?, hc, ha]

theorem c9_witness :
    responderStep0 Responder.new [EncryptionAlgorithm.AesGcm] =
      Except.ok ({ stage := 1
                   requested_algorithms := [EncryptionAlgorithm.AesGcm]
                   chosen_algorithm := some EncryptionAlgorithm.AesGcm
                   algorithms := [EncryptionAlgorithm.ChaChaPoly,
                                  EncryptionAlgorithm.AesGcm] }, [2]) :=
  (c9_responder_negotiation [EncryptionAlgorithm.AesGcm]).2.1 (by decide) (by decide)

/-! ## Claim C10: `GroupId` complete-id round trip -/

/-- C10: for 32-bit `group_id` and `channel_id`, the 64-bit complete id holds
the group id in its upper 32 bits and the channel id in its lower 32 bits, and
`into_group_id`/`into_channel_id` recover the two halves exactly. -/
theorem c10_group_id_roundtrip (group_id channel_id : Nat)
    (hg : group_id < 2 ^ 32) (hc : channel_id < 2 ^ 32) :
    intoCompleteId group_id channel_id = group_id * 2 ^ 32 + channel_id ∧
    intoGroupId (intoCompleteId group_id channel_id) = group_id ∧
    intoChannelId (intoCompleteId group_id channel_id) = channel_id := by
  have hcomp : intoCompleteId group_id channel_id =
      group_id * 2 ^ 32 + channel_id := by
    simp only [intoCompleteId, u32ToLeBytes, u64FromBeBytes, List.getD,
      List.foldl, Nat.shiftRight_eq_div_pow, List.getD_cons_succ,
      List.getD_cons_zero]
    norm_num
    omega
  refine ⟨hcomp, ?_, ?_⟩
  · rw [hcomp]
    simp only [intoGroupId, u64ToLeBytes, u32FromLeBytes, List.getD,
      List.foldr, Nat.shiftRight_eq_div_pow, List.getD_cons_succ,
      List.getD_cons_zero]
    norm_num
    omega
  · rw [hcomp]
    simp only [intoChannelId, u64ToLeBytes, u32FromLeBytes, List.getD,
      List.foldr, Nat.shiftRight_eq_div_pow, List.getD_cons_succ,
      List.getD_cons_zero]
    norm_num
    omega

theorem c10_witness :
    intoCompleteId 3 5 = 3 * 2 ^ 32 + 5 ∧
    intoGroupId (intoCompleteId 3 5) = 3 ∧
    intoChannelId (intoCompleteId 3 5) = 5 :=
  c10_group_id_roundtrip 3 5 (by decide) (by decide)

end Stratum
